import Mathlib

/-! Formal model of the DataLabSimpleClient repository: the remote-control
client (cdl_client/remote.py) and the simple base proxy
(cdlclient/baseproxy.py). Python values are modelled with plain Lean data:
bytes are Nat, exceptions are an explicit error type, and the external
libraries (the XML-RPC wire, numpy npy serialization, guidata dataset
serialization, plotpy item serialization) are modelled from their
documented behaviour as explicit data or as function parameters. -/

/-- Python exceptions that the modelled code raises or catches. -/
inductive PyErr where
  | typeError (msg : String)
  | valueError (msg : String)
  | attributeError (msg : String)
  | cdlConnectionError (msg : String)
  deriving DecidableEq

/-- A port value: the code passes ports either as a Python int (value of the
environment variable) or as a str (explicit argument, or the value read
from the configuration file). -/
inductive PortVal where
  | int (n : Int)
  | str (s : String)
  deriving DecidableEq

/-- Test for an ASCII decimal digit byte. -/
def isDigitB (b : Nat) : Bool := decide (48 ≤ b) && decide (b < 58)

/-- Test for a Python whitespace byte (the ASCII ones stripped by int()). -/
def isPySpaceB (b : Nat) : Bool :=
  b == 32 || b == 9 || b == 10 || b == 13 || b == 12 || b == 11

/-- Digit run of a Python int literal: digits with single underscores
allowed between digits, accumulating the decimal value. -/
def pyDigits : Nat → List Nat → Option Nat
  | acc, [] => some acc
  | acc, b :: rest =>
    if isDigitB b then pyDigits (acc * 10 + (b - 48)) rest
    else if b = 95 then
      match rest with
      | c :: rest2 => if isDigitB c then pyDigits (acc * 10 + (c - 48)) rest2 else none
      | [] => none
    else none

/-- Unsigned part of a Python int literal: nonempty, must begin with a digit. -/
def pyUnsigned : List Nat → Option Nat
  | [] => none
  | b :: rest => if isDigitB b then pyDigits (b - 48) rest else none

/-- Model of Python int(s) on a str: strip whitespace, optional sign,
then decimal digits with optional single underscores between digits.
Returns none where int() raises ValueError. -/
def pyIntOfString (s : String) : Option Int :=
  let bs := (s.data.map Char.toNat).dropWhile isPySpaceB
  let bs2 := (bs.reverse.dropWhile isPySpaceB).reverse
  match bs2 with
  | 43 :: rest => (pyUnsigned rest).map (fun n => (n : Int))
  | 45 :: rest => (pyUnsigned rest).map (fun n => -(n : Int))
  | _ => (pyUnsigned bs2).map (fun n => (n : Int))

/-- Model of the Python builtin int() applied to os.environ.get(...):
raises TypeError on None and ValueError on an unparseable string. -/
def pyInt : Option String → Except PyErr Int
  | none => .error (.typeError "int() argument must not be None")
  | some s =>
    match pyIntOfString s with
    | some n => .ok n
    | none => .error (.valueError ("invalid literal for int() with base 10: " ++ s))

/-- Model of get_xmlrpcport_from_env (remote.py lines 42-47): calls int on
the environment value and catches TypeError and ValueError, returning None.
The environment is passed in as the optional value of CDL_XMLRPCPORT. -/
def get_xmlrpcport_from_env (env : Option String) : Except PyErr (Option Int) :=
  match pyInt env with
  | .ok n => .ok (some n)
  | .error (.typeError _) => .ok none
  | .error (.valueError _) => .ok none
  | .error e => .error e

/-- A parsed configuration file: a list of sections, each a name with a list
of option/value pairs. -/
def Ini : Type := List (String × List (String × String))

/-- ConfigParser.get on a parsed file: find the section, then the option.
none models NoSectionError / NoOptionError. -/
def iniGet (ini : Ini) (sec opt : String) : Option String :=
  match ini.find? (fun p => p.fst == sec) with
  | none => none
  | some sp =>
    match sp.snd.find? (fun p => p.fst == opt) with
    | none => none
    | some ov => some ov.snd

/-- Model of get_cdl_xmlrpc_port (remote.py lines 142-152): read option
rpc_server_port of section main from DataLab.ini; NoSectionError and
NoOptionError are turned into CDLConnectionError. -/
def get_cdl_xmlrpc_port (ini : Ini) : Except PyErr String :=
  match iniGet ini "main" "rpc_server_port" with
  | some s => .ok s
  | none => .error (.cdlConnectionError "DataLab has not yet been executed")

/-- Port discovery of __connect_to_server (remote.py lines 214-217): an
explicit port is used as-is; otherwise the environment variable is tried
first, and the configuration file only if the environment gave no valid
integer. -/
def resolvePort (explicit : Option PortVal) (env : Option String) (ini : Ini) :
    Except PyErr PortVal :=
  match explicit with
  | some p => .ok p
  | none =>
    match get_xmlrpcport_from_env env with
    | .ok (some n) => .ok (.int n)
    | .ok none =>
      match get_cdl_xmlrpc_port ini with
      | .ok s => .ok (.str s)
      | .error e => .error e
    | .error e => .error e

/-- The numeric dtypes the client transports (numpy native descr codes,
little-endian for multibyte types, allow_pickle stays False so object
dtypes are rejected by np.save and never produce a blob). -/
inductive Dtype where
  | f8 | f4 | i8 | i4 | i2 | i1 | u8 | u4 | u2 | u1 | b1 | c16 | c8
  deriving DecidableEq

/-- The numpy descr string of a dtype, as ASCII bytes. -/
def Dtype.descrBytes : Dtype → List Nat
  | .f8 => [60, 102, 56]
  | .f4 => [60, 102, 52]
  | .i8 => [60, 105, 56]
  | .i4 => [60, 105, 52]
  | .i2 => [60, 105, 50]
  | .i1 => [124, 105, 49]
  | .u8 => [60, 117, 56]
  | .u4 => [60, 117, 52]
  | .u2 => [60, 117, 50]
  | .u1 => [124, 117, 49]
  | .b1 => [124, 98, 49]
  | .c16 => [60, 99, 49, 54]
  | .c8 => [60, 99, 56]

/-- Bytes per element of a dtype. -/
def Dtype.itemsize : Dtype → Nat
  | .f8 => 8
  | .f4 => 4
  | .i8 => 8
  | .i4 => 4
  | .i2 => 2
  | .i1 => 1
  | .u8 => 8
  | .u4 => 4
  | .u2 => 2
  | .u1 => 1
  | .b1 => 1
  | .c16 => 16
  | .c8 => 8

/-- Inverse of Dtype.descrBytes, used by the header parser. -/
def dtypeOfDescr (bs : List Nat) : Option Dtype :=
  if bs = Dtype.descrBytes .f8 then some .f8
  else if bs = Dtype.descrBytes .f4 then some .f4
  else if bs = Dtype.descrBytes .i8 then some .i8
  else if bs = Dtype.descrBytes .i4 then some .i4
  else if bs = Dtype.descrBytes .i2 then some .i2
  else if bs = Dtype.descrBytes .i1 then some .i1
  else if bs = Dtype.descrBytes .u8 then some .u8
  else if bs = Dtype.descrBytes .u4 then some .u4
  else if bs = Dtype.descrBytes .u2 then some .u2
  else if bs = Dtype.descrBytes .u1 then some .u1
  else if bs = Dtype.descrBytes .b1 then some .b1
  else if bs = Dtype.descrBytes .c16 then some .c16
  else if bs = Dtype.descrBytes .c8 then some .c8
  else none

/-- A numpy array as transported: dtype, memory order flag, shape, and the
raw element buffer as a list of bytes. -/
structure NDArray where
  dtype : Dtype
  fortranOrder : Bool
  shape : List Nat
  data : List Nat
  deriving DecidableEq

/-- Product of a shape, the element count of the array. -/
def listProd : List Nat → Nat
  | [] => 1
  | n :: t => n * listProd t

/-- Little-endian decimal digits of n (least significant first), with
explicit fuel so the kernel can evaluate it. Empty for n = 0. -/
def natDigitsRev : Nat → Nat → List Nat
  | 0, _ => []
  | f + 1, n => if n = 0 then [] else n % 10 :: natDigitsRev f (n / 10)

/-- ASCII bytes of the decimal rendering of n, as Python repr writes it. -/
def natBytes (n : Nat) : List Nat :=
  if n = 0 then [48] else ((natDigitsRev n n).reverse.map (fun d => d + 48))

/-- Bytes of the Python repr of a bool. -/
def boolBytes : Bool → List Nat
  | true => [84, 114, 117, 101]
  | false => [70, 97, 108, 115, 101]

/-- Rendering of the dimensions after the first in a shape tuple of at
least two dimensions, each preceded by a comma and space, then the
closing paren. -/
def shapeTailRender (l : List Nat) : List Nat :=
  l.flatMap (fun m => 44 :: 32 :: natBytes m) ++ [41]

/-- Bytes of the Python repr of a shape tuple: (), (3,), (3, 4), ... -/
def shapeBytes : List Nat → List Nat
  | [] => [40, 41]
  | [n] => 40 :: (natBytes n ++ [44, 41])
  | n :: rest => 40 :: (natBytes n ++ shapeTailRender rest)

/-- Header fragment before the descr value, with its opening quote. -/
def litDescr : List Nat := [123, 39, 100, 101, 115, 99, 114, 39, 58, 32, 39]

/-- Header fragment between descr and the fortran-order value, starting
with the quote closing the descr string. -/
def litForder : List Nat :=
  [39, 44, 32, 39, 102, 111, 114, 116, 114, 97, 110, 95, 111, 114, 100,
   101, 114, 39, 58, 32]

/-- Header fragment between the fortran-order value and the shape value. -/
def litShape : List Nat := [44, 32, 39, 115, 104, 97, 112, 101, 39, 58, 32]

/-- Header fragment closing the dict. -/
def litEnd : List Nat := [44, 32, 125]

/-- The npy dict header body written by numpy (sorted keys descr,
fortran-order flag, shape), before padding. -/
def headerCore (d : Dtype) (f : Bool) (s : List Nat) : List Nat :=
  litDescr ++ d.descrBytes ++ litForder ++ boolBytes f ++ litShape ++
    shapeBytes s ++ litEnd

/-- The npy magic bytes: 0x93 then NUMPY. -/
def magicBytes : List Nat := [147, 78, 85, 77, 80, 89]

/-- Model of array_to_rpcbinary (remote.py lines 50-64): np.save with
allow_pickle False into a BytesIO, whose bytes become the Binary payload.
Format version 1.0 is used while the padded header length fits in two
bytes, else version 2.0 with a four-byte length; numpy pads the header
with spaces and a final newline so the data start is 64-byte aligned. -/
def array_to_rpcbinary (a : NDArray) : Option (List Nat) :=
  let core := headerCore a.dtype a.fortranOrder a.shape
  let hlen := core.length + 1
  let pad1 := 64 - ((8 + 2 + hlen) % 64)
  let len1 := hlen + pad1
  if len1 < 65536 then
    some (magicBytes ++ [1, 0] ++ [len1 % 256, len1 / 256] ++ core ++
      List.replicate pad1 32 ++ [10] ++ a.data)
  else
    let pad2 := 64 - ((8 + 4 + hlen) % 64)
    let len2 := hlen + pad2
    if len2 < 4294967296 then
      some (magicBytes ++ [2, 0] ++
        [len2 % 256, len2 / 256 % 256, len2 / 65536 % 256, len2 / 16777216] ++
        core ++ List.replicate pad2 32 ++ [10] ++ a.data)
    else none

/-- Drop an exact expected byte sequence from the front of a list. -/
def dropExact : List Nat → List Nat → Option (List Nat)
  | [], bs => some bs
  | _ :: _, [] => none
  | p :: ps, b :: bs => if b = p then dropExact ps bs else none

/-- Split a byte list at the first quote byte (39), keeping the quote on
the remainder side; none if there is no quote. -/
def takeUntilQuote : List Nat → Option (List Nat × List Nat)
  | [] => none
  | b :: rest =>
    if b = 39 then some ([], b :: rest)
    else
      match takeUntilQuote rest with
      | none => none
      | some pq => some (b :: pq.fst, pq.snd)

/-- Parse loop for a decimal number: consume digit bytes, accumulating. -/
def parseNatLoop : Nat → List Nat → Nat × List Nat
  | acc, [] => (acc, [])
  | acc, b :: rest =>
    if isDigitB b then parseNatLoop (acc * 10 + (b - 48)) rest
    else (acc, b :: rest)

/-- Parse a decimal number: at least one digit byte. -/
def parseNat : List Nat → Option (Nat × List Nat)
  | [] => none
  | b :: rest => if isDigitB b then some (parseNatLoop (b - 48) rest) else none

/-- Parse the remainder of a tuple after its first number: either a closing
paren, a trailing comma and closing paren, or a comma, space and another
number. Fuel bounds the recursion. -/
def parseShapeTail : Nat → List Nat → List Nat → Option (List Nat × List Nat)
  | 0, _, _ => none
  | fuel + 1, acc, bs =>
    match bs with
    | [] => none
    | b :: bs2 =>
      if b = 41 then some (acc.reverse, bs2)
      else if b = 44 then
        match bs2 with
        | [] => none
        | c :: bs3 =>
          if c = 41 then some (acc.reverse, bs3)
          else if c = 32 then
            match parseNat bs3 with
            | none => none
            | some nr => parseShapeTail fuel (nr.fst :: acc) nr.snd
          else none
      else none

/-- Parse a Python tuple of decimal numbers, as repr renders a shape. -/
def parseShape (bs : List Nat) : Option (List Nat × List Nat) :=
  match bs with
  | 40 :: b :: rest =>
    if b = 41 then some ([], rest)
    else
      match parseNat (b :: rest) with
      | none => none
      | some nr => parseShapeTail (nr.snd.length + 1) [nr.fst] nr.snd
  | _ => none

/-- Parse the npy dict header (the canonical form written by numpy):
descr string, fortran-order bool, shape tuple, then only padding spaces
and the final newline may follow. -/
def parseHeader (bs : List Nat) : Option (Dtype × Bool × List Nat) :=
  match dropExact litDescr bs with
  | none => none
  | some r1 =>
    match takeUntilQuote r1 with
    | none => none
    | some dq =>
      match dtypeOfDescr dq.fst with
      | none => none
      | some d =>
        match dropExact litForder dq.snd with
        | none => none
        | some r2 =>
          match
            (match dropExact (boolBytes true) r2 with
             | some r3 => some (true, r3)
             | none =>
               match dropExact (boolBytes false) r2 with
               | some r3 => some (false, r3)
               | none => none) with
          | none => none
          | some fr =>
            match dropExact litShape fr.snd with
            | none => none
            | some r4 =>
              match parseShape r4 with
              | none => none
              | some sr =>
                match dropExact litEnd sr.snd with
                | none => none
                | some r5 =>
                  if r5.all (fun b => b == 32 || b == 10) then
                    some (d, fr.fst, sr.fst)
                  else none

/-- Decode the part of an npy blob after magic and version: take the
announced header length, parse the header, then read the element buffer
(exactly itemsize times the element count bytes; np.load ignores
trailing bytes beyond that and fails if fewer are available). -/
def decodeWithHeader (len : Nat) (bs : List Nat) : Option NDArray :=
  if len ≤ bs.length then
    match parseHeader (bs.take len) with
    | none => none
    | some dfs =>
      let count := dfs.fst.itemsize * listProd dfs.snd.snd
      let rest := bs.drop len
      if count ≤ rest.length then
        some ⟨dfs.fst, dfs.snd.fst, dfs.snd.snd, rest.take count⟩
      else none
  else none

/-- Model of rpcbinary_to_array (remote.py lines 67-77): np.load with
allow_pickle False from the Binary payload bytes. -/
def rpcbinary_to_array (bs : List Nat) : Option NDArray :=
  match dropExact magicBytes bs with
  | none => none
  | some r =>
    match r with
    | v1 :: v2 :: r2 =>
      if v1 = 1 && v2 = 0 then
        match r2 with
        | b0 :: b1 :: r3 => decodeWithHeader (b0 + 256 * b1) r3
        | _ => none
      else if v1 = 2 && v2 = 0 then
        match r2 with
        | b0 :: b1 :: b2 :: b3 :: r3 =>
          decodeWithHeader (b0 + 256 * b1 + 65536 * b2 + 16777216 * b3) r3
        | _ => none
      else none
    | _ => none

/-- A guidata DataSet class, identified by its module and class name
(what dataset_to_json records and importlib plus getattr look up). -/
structure GDClass where
  modname : String
  clsname : String
  deriving DecidableEq

/-- A guidata DataSet instance: its class and its serializable contents.
The contents are abstracted as an opaque state; the guidata JSON writer
and reader are passed in as functions on it. -/
structure GDataSet where
  klass : GDClass
  content : String
  deriving DecidableEq

/-- Model of dataset_to_json (remote.py lines 80-99): serialize the
instance with the guidata JSON writer ser, and return the three-element
list of module name, class name and JSON text. -/
def dataset_to_json (ser : String → String) (p : GDataSet) : List String :=
  [p.klass.modname, p.klass.clsname, ser p.content]

/-- Model of json_to_dataset (remote.py lines 102-117): import the module
and fetch the class (registry models importlib plus getattr; none is an
ImportError or AttributeError), instantiate it, and deserialize the JSON
text into it with the guidata JSON reader deser. -/
def json_to_dataset (registry : String → String → Option GDClass)
    (deser : String → String) (data : List String) : Option GDataSet :=
  match data with
  | [m, c, j] =>
    match registry m c with
    | some k => some ⟨k, deser j⟩
    | none => none
  | _ => none

/-- A value on the XML-RPC wire (allow_none is True, so None is legal);
vds stands for a raw Python DataSet object handed to the marshaller,
which is what passing a dataset argument through unchanged would mean. -/
inductive RpcVal where
  | vnone
  | vbool (b : Bool)
  | vint (n : Int)
  | vstr (s : String)
  | vbin (bs : List Nat)
  | vlist (l : List RpcVal)
  | vds (d : GDataSet)

/-- One method call issued on the underlying ServerProxy. -/
structure RpcCall where
  method : String
  args : List RpcVal

/-- Marshal an optional str argument (None travels as nil). -/
def optStr : Option String → RpcVal
  | none => .vnone
  | some s => .vstr s

/-- Marshal an optional int argument. -/
def optInt : Option Int → RpcVal
  | none => .vnone
  | some n => .vint n

/-- Marshal a selection list of indices or uuids. -/
def selVal (sel : List (Int ⊕ String)) : RpcVal :=
  .vlist (sel.map (fun x => match x with | .inl n => .vint n | .inr s => .vstr s))

/-- Model of SimpleBaseProxy.switch_to_panel (baseproxy.py lines 345-351):
forward to the remote method of the same name; the remote return value is
discarded, the Python method returns None. -/
def SimpleBaseProxy.switch_to_panel (panel : String) : Unit × List RpcCall :=
  ((), [⟨"switch_to_panel", [.vstr panel]⟩])

/-- Model of SimpleBaseProxy.reset_all (baseproxy.py lines 353-355). -/
def SimpleBaseProxy.reset_all : Unit × List RpcCall :=
  ((), [⟨"reset_all", []⟩])

/-- Model of SimpleBaseProxy.save_to_h5_file (baseproxy.py lines 357-363). -/
def SimpleBaseProxy.save_to_h5_file (filename : String) : Unit × List RpcCall :=
  ((), [⟨"save_to_h5_file", [.vstr filename]⟩])

/-- Model of SimpleBaseProxy.select_objects (baseproxy.py lines 409-423). -/
def SimpleBaseProxy.select_objects (selection : List (Int ⊕ String))
    (group_num : Option Int) (panel : Option String) : Unit × List RpcCall :=
  ((), [⟨"select_objects", [selVal selection, optInt group_num, optStr panel]⟩])

/-- Model of SimpleBaseProxy.get_object_titles (baseproxy.py lines 445-458):
forward and return the remote result; rsp is the remote response function. -/
def SimpleBaseProxy.get_object_titles (rsp : String → List RpcVal → RpcVal)
    (panel : Option String) : RpcVal × List RpcCall :=
  (rsp "get_object_titles" [optStr panel], [⟨"get_object_titles", [optStr panel]⟩])

/-- Model of SimpleBaseProxy.get_object_uuids (baseproxy.py lines 460-473). -/
def SimpleBaseProxy.get_object_uuids (rsp : String → List RpcVal → RpcVal)
    (panel : Option String) : RpcVal × List RpcCall :=
  (rsp "get_object_uuids" [optStr panel], [⟨"get_object_uuids", [optStr panel]⟩])

/-- Model of RemoteClient.calc (remote.py lines 343-356): with no parameter
the remote calc gets only the name; a DataSet parameter is first encoded
with dataset_to_json (ser is the guidata JSON writer). -/
def RemoteClient.calc_fn (rsp : String → List RpcVal → RpcVal)
    (ser : String → String) (name : String) (param : Option GDataSet) :
    RpcVal × List RpcCall :=
  match param with
  | none => (rsp "calc" [.vstr name], [⟨"calc", [.vstr name]⟩])
  | some p =>
    let j := RpcVal.vlist ((dataset_to_json ser p).map RpcVal.vstr)
    (rsp "calc" [.vstr name, j], [⟨"calc", [.vstr name, j]⟩])

/-- Model of RemoteClient.add_signal (remote.py lines 274-306): both arrays
are encoded with array_to_rpcbinary before the remote call; np.save
failure propagates and no call is made. -/
def RemoteClient.add_signal (rsp : String → List RpcVal → RpcVal)
    (title : String) (xdata ydata : NDArray)
    (xunit yunit xlabel ylabel : Option String) :
    Except PyErr RpcVal × List RpcCall :=
  match array_to_rpcbinary xdata with
  | none => (.error (.valueError "npy header too large"), [])
  | some xb =>
    match array_to_rpcbinary ydata with
    | none => (.error (.valueError "npy header too large"), [])
    | some yb =>
      let args := [RpcVal.vstr title, RpcVal.vbin xb, RpcVal.vbin yb,
        optStr xunit, optStr yunit, optStr xlabel, optStr ylabel]
      (.ok (rsp "add_signal" args), [⟨"add_signal", args⟩])

/-- Model of RemoteClient.add_image (remote.py lines 309-341). -/
def RemoteClient.add_image (rsp : String → List RpcVal → RpcVal)
    (title : String) (data : NDArray)
    (xunit yunit zunit xlabel ylabel zlabel : Option String) :
    Except PyErr RpcVal × List RpcCall :=
  match array_to_rpcbinary data with
  | none => (.error (.valueError "npy header too large"), [])
  | some zb =>
    let args := [RpcVal.vstr title, RpcVal.vbin zb, optStr xunit,
      optStr yunit, optStr zunit, optStr xlabel, optStr ylabel, optStr zlabel]
    (.ok (rsp "add_image" args), [⟨"add_image", args⟩])

/-- Model of items_to_json (remote.py lines 155-170): a non-empty item list
is serialized with plotpy save_items into JSON text; an empty list gives
None. saveItems models the plotpy writer on abstract items. -/
def items_to_json (saveItems : List String → String) (items : List String) :
    Option String :=
  if items.isEmpty then none else some (saveItems items)

/-- Model of RemoteClient.add_annotations_from_items (remote.py lines
358-376, plotpy installed): when items_to_json gives None no remote call
is issued at all, otherwise the JSON text is forwarded. -/
def RemoteClient.add_annots_from_items (saveItems : List String → String)
    (items : List String) (refresh_plot : Bool) (panel : Option String) :
    Unit × List RpcCall :=
  match items_to_json saveItems items with
  | none => ((), [])
  | some j =>
    ((), [⟨"add_annotations_from_items", [.vstr j, .vbool refresh_plot, optStr panel]⟩])

/-- Prefix test on byte-for-byte characters, as Python startswith. -/
def hasPfx : List Char → List Char → Bool
  | [], _ => true
  | _ :: _, [] => false
  | c :: p, d :: s => c == d && hasPfx p s

/-- Model of SimpleAbstractCDLControl.__getattr__ (baseproxy.py lines
288-315): only invoked for names with no other definition; a name with the
compute_ prefix yields a callable applying calc to it, anything else is an
AttributeError. -/
def dunder_getattr (rsp : String → List RpcVal → RpcVal)
    (ser : String → String) (name : String) :
    Except PyErr (Option GDataSet → RpcVal × List RpcCall) :=
  if hasPfx "compute_".data name.data then
    .ok (fun param => RemoteClient.calc_fn rsp ser name param)
  else
    .error (.attributeError ("DataLab has no compute function \x27" ++ name ++ "\x27"))

/-- The mutable state of a RemoteClient: self.port and self._cdl (the
ServerProxy is identified by the port its URL was built from). -/
structure ClientState where
  port : Option PortVal
  cdl : Option PortVal
  deriving DecidableEq

/-- Model of RemoteClient.__connect_to_server (remote.py lines 204-223):
resolve the port (an error there leaves the state alone), store it and the
proxy, then probe with get_version; refuseAt tells whether the server
refuses the connection on attempt i. -/
def connect_to_server (explicit : Option PortVal) (env : Option String)
    (ini : Ini) (refuseAt : Nat → Bool) (i : Nat) (st : ClientState) :
    Except PyErr Unit × ClientState :=
  match resolvePort explicit env ini with
  | .error e => (.error e, st)
  | .ok p =>
    let st2 : ClientState := ⟨some p, some p⟩
    if refuseAt i then
      (.error (.cdlConnectionError "DataLab is currently not running"), st2)
    else (.ok (), st2)

/-- Whether connection attempt i succeeds: the port resolves and the
server does not refuse. -/
def attemptOk (explicit : Option PortVal) (env : Option String) (ini : Ini)
    (refuseAt : Nat → Bool) (i : Nat) : Bool :=
  match resolvePort explicit env ini with
  | .error _ => false
  | .ok _ => !refuseAt i

/-- Result of the retry loop: the state captured at the break if any,
the final state, and how many attempts and sleeps were performed. -/
structure LoopRes where
  success : Option ClientState
  stFinal : ClientState
  attempts : Nat
  sleeps : Nat
  deriving DecidableEq

/-- The for-loop of RemoteClient.connect (remote.py lines 251-256): try
__connect_to_server; break on success; on CDLConnectionError sleep one
timeout slice and move to the next index. -/
def connectLoop (explicit : Option PortVal) (env : Option String) (ini : Ini)
    (refuseAt : Nat → Bool) : Nat → Nat → ClientState → LoopRes
  | _, 0, st => ⟨none, st, 0, 0⟩
  | i, rem + 1, st =>
    match connect_to_server explicit env ini refuseAt i st with
    | (.ok _, st2) => ⟨some st2, st2, 1, 0⟩
    | (.error _, st2) =>
      let r := connectLoop explicit env ini refuseAt (i + 1) rem st2
      ⟨r.success, r.stFinal, r.attempts + 1, r.sleeps + 1⟩

/-- Decidable equality for Except results, for concrete witnesses. -/
instance exceptDecEq {e a : Type} [DecidableEq e] [DecidableEq a] :
    DecidableEq (Except e a) := fun x y =>
  match x, y with
  | .ok u, .ok v =>
    if h : u = v then isTrue (by rw [h]) else isFalse (by simp [h])
  | .error u, .error v =>
    if h : u = v then isTrue (by rw [h]) else isFalse (by simp [h])
  | .ok _, .error _ => isFalse (by simp)
  | .error _, .ok _ => isFalse (by simp)

/-- Outcome of RemoteClient.connect: result or exception, final state,
number of attempts, number of sleeps, and total time slept. -/
structure ConnectOutcome where
  result : Except PyErr Unit
  stFinal : ClientState
  attempts : Nat
  sleeps : Nat
  totalSleep : Rat
  deriving DecidableEq

/-- Model of RemoteClient.connect (remote.py lines 225-260): defaults
timeout 5.0 and retries 10, argument validation in that order, then up to
retries attempts, sleeping timeout divided by retries after each failure;
exhaustion raises CDLConnectionError. -/
def connect (explicit : Option PortVal) (env : Option String) (ini : Ini)
    (refuseAt : Nat → Bool) (timeout? : Option Rat) (retries? : Option Int)
    (st : ClientState) : ConnectOutcome :=
  let timeout := timeout?.getD 5
  let retries := retries?.getD 10
  if timeout < 0 then ⟨.error (.valueError "timeout must be >= 0.0"), st, 0, 0, 0⟩
  else if retries < 1 then ⟨.error (.valueError "retries must be >= 1"), st, 0, 0, 0⟩
  else
    let r := connectLoop explicit env ini refuseAt 0 retries.toNat st
    let slept : Rat := r.sleeps * (timeout / (retries : Rat))
    match r.success with
    | some _ => ⟨.ok (), r.stFinal, r.attempts, r.sleeps, slept⟩
    | none =>
      ⟨.error (.cdlConnectionError "Unable to connect to DataLab"), r.stFinal,
        r.attempts, r.sleeps, slept⟩

/-- A tiny concrete array used by the witnesses. -/
def wArr : NDArray := ⟨.u1, false, [2], [7, 9]⟩

/-- The npy blob of the witness array. -/
def wBlob : List Nat := (array_to_rpcbinary wArr).getD []

theorem dropExact_append (p rest : List Nat) : dropExact p (p ++ rest) = some rest := by
  induction p with
  | nil => rfl
  | cons b bs ih => simp [dropExact, ih]

theorem takeUntilQuote_append (pre rest : List Nat) (h : ∀ b ∈ pre, b ≠ 39) :
    takeUntilQuote (pre ++ 39 :: rest) = some (pre, 39 :: rest) := by
  induction pre with
  | nil => simp [takeUntilQuote]
  | cons b bs ih =>
    have hb : b ≠ 39 := h b (by simp)
    have ih2 := ih (fun x hx => h x (by simp [hx]))
    simp [takeUntilQuote, hb, ih2]

theorem natDigitsRev_zero (f : Nat) : natDigitsRev f 0 = [] := by
  cases f <;> simp [natDigitsRev]

theorem natDigitsRev_stable (f : Nat) : ∀ g n, n ≤ f → n ≤ g →
    natDigitsRev f n = natDigitsRev g n := by
  induction f with
  | zero =>
    intro g n hf _
    have : n = 0 := Nat.le_zero.mp hf
    subst this
    simp [natDigitsRev_zero, natDigitsRev]
  | succ f ih =>
    intro g n hf hg
    by_cases h0 : n = 0
    · subst h0; simp [natDigitsRev_zero]
    · cases g with
      | zero => omega
      | succ g =>
      have hdiv : n / 10 < n := Nat.div_lt_self (by omega) (by norm_num)
      have h1 : n / 10 ≤ f := by omega
      have h2 : n / 10 ≤ g := by omega
      simp [natDigitsRev, h0, ih g (n / 10) h1 h2]

theorem natDigitsRev_lt (f : Nat) : ∀ n d, d ∈ natDigitsRev f n → d < 10 := by
  induction f with
  | zero => intro n d h; simp [natDigitsRev] at h
  | succ f ih =>
    intro n d h
    by_cases h0 : n = 0
    · subst h0; simp [natDigitsRev] at h
    · simp [natDigitsRev, h0] at h
      rcases h with h | h
      · omega
      · exact ih _ _ h

theorem natDigitsRev_ne_nil (f n : Nat) (h0 : n ≠ 0) (hf : n ≤ f) :
    natDigitsRev f n ≠ [] := by
  cases f with
  | zero => omega
  | succ f => simp [natDigitsRev, h0]

theorem foldl_natDigitsRev (f : Nat) : ∀ n acc, n ≤ f →
    List.foldl (fun a d => a * 10 + d) acc (natDigitsRev f n).reverse =
      acc * 10 ^ (natDigitsRev f n).length + n := by
  induction f with
  | zero =>
    intro n acc hf
    have : n = 0 := Nat.le_zero.mp hf
    subst this
    simp [natDigitsRev]
  | succ f ih =>
    intro n acc hf
    by_cases h0 : n = 0
    · subst h0; simp [natDigitsRev]
    · have hdiv : n / 10 < n := Nat.div_lt_self (by omega) (by norm_num)
      have h1 : n / 10 ≤ f := by omega
      have key := ih (n / 10) acc h1
      simp only [natDigitsRev, h0, if_false, List.reverse_cons, List.foldl_append,
        List.foldl_cons, List.foldl_nil, List.length_cons, key]
      have hpow : 10 ^ ((natDigitsRev f (n / 10)).length + 1) =
          10 ^ (natDigitsRev f (n / 10)).length * 10 := by ring
      rw [hpow]
      have hmod : n / 10 * 10 + n % 10 = n := by omega
      ring_nf
      omega

theorem parseNatLoop_digits (ds : List Nat) : ∀ acc rest,
    (∀ d ∈ ds, d < 10) → isDigitB (rest.headD 0) = false →
    parseNatLoop acc (ds.map (fun d => d + 48) ++ rest) =
      (List.foldl (fun a d => a * 10 + d) acc ds, rest) := by
  induction ds with
  | nil =>
    intro acc rest _ hrest
    cases rest with
    | nil => rfl
    | cons b r =>
      simp only [List.headD] at hrest
      simp [parseNatLoop, hrest]
  | cons d ds ih =>
    intro acc rest hds hrest
    have hd : d < 10 := hds d (by simp)
    have hdig : isDigitB (d + 48) = true := by simp [isDigitB]; omega
    have hval : d + 48 - 48 = d := by omega
    simp only [List.map_cons, List.cons_append, parseNatLoop, hdig, if_true, hval,
      List.foldl_cons]
    exact ih _ rest (fun x hx => hds x (by simp [hx])) hrest

theorem natBytes_cons (n : Nat) : ∃ b t, natBytes n = b :: t ∧ 48 ≤ b ∧ b < 58 := by
  by_cases h0 : n = 0
  · subst h0
    exact ⟨48, [], rfl, by omega, by omega⟩
  · have hne : natDigitsRev n n ≠ [] := natDigitsRev_ne_nil n n h0 le_rfl
    have hrev : (natDigitsRev n n).reverse ≠ [] := by simp [hne]
    cases hd : (natDigitsRev n n).reverse with
    | nil => exact absurd hd hrev
    | cons d t =>
      have hdlt : d < 10 := by
        have : d ∈ (natDigitsRev n n).reverse := by simp [hd]
        exact natDigitsRev_lt n n d (List.mem_reverse.mp this)
      refine ⟨d + 48, t.map (fun d => d + 48), ?_, by omega, by omega⟩
      simp [natBytes, h0, hd]

theorem parseNat_natBytes (n : Nat) (rest : List Nat)
    (hrest : isDigitB (rest.headD 0) = false) :
    parseNat (natBytes n ++ rest) = some (n, rest) := by
  by_cases h0 : n = 0
  · subst h0
    have hcons : natBytes 0 ++ rest = 48 :: rest := rfl
    rw [hcons]
    have hdig : isDigitB 48 = true := by decide
    simp only [parseNat, hdig, if_true]
    have h48 : (48 : Nat) - 48 = 0 := rfl
    rw [h48]
    cases rest with
    | nil => rfl
    | cons b r =>
      simp only [List.headD] at hrest
      simp [parseNatLoop, hrest]
  · have hne : natDigitsRev n n ≠ [] := natDigitsRev_ne_nil n n h0 le_rfl
    cases hd : (natDigitsRev n n).reverse with
    | nil => simp at hd; exact absurd hd hne
    | cons d t =>
      have hmem : ∀ x ∈ d :: t, x < 10 := by
        intro x hx
        have hx2 : x ∈ (natDigitsRev n n).reverse := by rw [hd]; exact hx
        exact natDigitsRev_lt n n x (List.mem_reverse.mp hx2)
      have hdlt : d < 10 := hmem d (by simp)
      have hdig : isDigitB (d + 48) = true := by simp [isDigitB]; omega
      have hval : d + 48 - 48 = d := by omega
      have hloop := parseNatLoop_digits t d rest (fun x hx => hmem x (by simp [hx])) hrest
      have hfold2 : List.foldl (fun a d => a * 10 + d) d t = n := by
        have h := foldl_natDigitsRev n n 0 le_rfl
        rw [hd] at h
        simpa using h
      have hbytes : natBytes n ++ rest = (d + 48) :: (t.map (fun d => d + 48) ++ rest) := by
        simp only [natBytes]
        rw [if_neg h0, hd]
        simp
      rw [hbytes]
      simp only [parseNat, hdig, if_true, hval, hloop, hfold2]

theorem shapeTailRender_length (l : List Nat) : l.length ≤ (shapeTailRender l).length := by
  induction l with
  | nil => simp [shapeTailRender]
  | cons m l2 ih =>
    simp only [shapeTailRender, List.flatMap_cons, List.length_cons, List.append_assoc,
      List.length_append] at *
    omega

theorem shapeTailRender_headD (l tail : List Nat) :
    isDigitB ((shapeTailRender l ++ tail).headD 0) = false := by
  cases l with
  | nil => simp [shapeTailRender]; decide
  | cons m l2 => simp [shapeTailRender]; decide

theorem parseShapeTail_close (fuel : Nat) (acc tail : List Nat) (h : 1 ≤ fuel) :
    parseShapeTail fuel acc (44 :: 41 :: tail) = some (acc.reverse, tail) := by
  cases fuel with
  | zero => omega
  | succ f => simp [parseShapeTail]

theorem parseShapeTail_render (l : List Nat) : ∀ (fuel : Nat) (acc tail : List Nat),
    l.length < fuel →
    parseShapeTail fuel acc (shapeTailRender l ++ tail) = some (acc.reverse ++ l, tail) := by
  induction l with
  | nil =>
    intro fuel acc tail hf
    cases fuel with
    | zero => omega
    | succ f => simp [shapeTailRender, parseShapeTail]
  | cons m l2 ih =>
    intro fuel acc tail hf
    cases fuel with
    | zero => simp at hf
    | succ f =>
      have hbytes : shapeTailRender (m :: l2) ++ tail =
          44 :: 32 :: (natBytes m ++ (shapeTailRender l2 ++ tail)) := by
        simp [shapeTailRender, List.flatMap_cons, List.append_assoc]
      rw [hbytes]
      have hnum := parseNat_natBytes m (shapeTailRender l2 ++ tail)
        (shapeTailRender_headD l2 tail)
      have hrec := ih f (m :: acc) tail (by simpa using Nat.lt_of_succ_lt_succ hf)
      simp only [parseShapeTail, hnum]
      norm_num
      rw [hrec]
      simp

theorem parseShape_shapeBytes (s tail : List Nat) :
    parseShape (shapeBytes s ++ tail) = some (s, tail) := by
  match s with
  | [] => simp [shapeBytes, parseShape]
  | [n] =>
    obtain ⟨b, t, hbt, hb1, hb2⟩ := natBytes_cons n
    have hbytes : shapeBytes [n] ++ tail = 40 :: b :: (t ++ (44 :: 41 :: tail)) := by
      simp [shapeBytes, hbt, List.append_assoc]
    rw [hbytes]
    have hb41 : b ≠ 41 := by omega
    have hnum : parseNat (b :: (t ++ (44 :: 41 :: tail))) = some (n, 44 :: 41 :: tail) := by
      have : b :: (t ++ (44 :: 41 :: tail)) = natBytes n ++ (44 :: 41 :: tail) := by
        rw [hbt]; simp
      rw [this]
      exact parseNat_natBytes n _ (by simp [isDigitB])
    simp only [parseShape, if_neg hb41, hnum]
    rw [parseShapeTail_close _ _ _ (by omega)]
    simp
  | n :: m :: s2 =>
    obtain ⟨b, t, hbt, hb1, hb2⟩ := natBytes_cons n
    have hbytes : shapeBytes (n :: m :: s2) ++ tail =
        40 :: b :: (t ++ (shapeTailRender (m :: s2) ++ tail)) := by
      simp [shapeBytes, hbt, List.append_assoc]
    rw [hbytes]
    have hb41 : b ≠ 41 := by omega
    have hnum : parseNat (b :: (t ++ (shapeTailRender (m :: s2) ++ tail))) =
        some (n, shapeTailRender (m :: s2) ++ tail) := by
      have : b :: (t ++ (shapeTailRender (m :: s2) ++ tail)) =
          natBytes n ++ (shapeTailRender (m :: s2) ++ tail) := by
        rw [hbt]; simp
      rw [this]
      exact parseNat_natBytes n _ (shapeTailRender_headD _ _)
    simp only [parseShape, if_neg hb41, hnum]
    have hlen : (m :: s2).length < (shapeTailRender (m :: s2) ++ tail).length + 1 := by
      have h1 := shapeTailRender_length (m :: s2)
      simp only [List.length_append]
      omega
    rw [parseShapeTail_render (m :: s2) _ [n] tail hlen]
    simp

theorem descr_no_quote (d : Dtype) : ∀ b ∈ d.descrBytes, b ≠ 39 := by
  cases d <;> decide

theorem dtypeOfDescr_self (d : Dtype) : dtypeOfDescr d.descrBytes = some d := by
  cases d <;> decide

theorem trailing_all (pad : Nat) :
    (List.replicate pad 32 ++ [10]).all (fun b => b == 32 || b == 10) = true := by
  induction pad with
  | zero => rfl
  | succ p ih => simp [List.replicate_succ, ih]

theorem parseHeader_render (d : Dtype) (f : Bool) (s : List Nat) (pad : Nat) :
    parseHeader (headerCore d f s ++ (List.replicate pad 32 ++ [10])) = some (d, f, s) := by
  have htrail := trailing_all pad
  have hassoc : headerCore d f s ++ (List.replicate pad 32 ++ [10]) =
      litDescr ++ (d.descrBytes ++ (litForder ++ (boolBytes f ++ (litShape ++
        (shapeBytes s ++ (litEnd ++ (List.replicate pad 32 ++ [10]))))))) := by
    simp [headerCore, List.append_assoc]
  rw [hassoc]
  have e1 : ∀ Y : List Nat, litForder ++ Y = 39 :: (litForder.tail ++ Y) := fun _ => rfl
  have hquote : takeUntilQuote (d.descrBytes ++ (litForder ++ (boolBytes f ++ (litShape ++
      (shapeBytes s ++ (litEnd ++ (List.replicate pad 32 ++ [10]))))))) =
      some (d.descrBytes, litForder ++ (boolBytes f ++ (litShape ++
      (shapeBytes s ++ (litEnd ++ (List.replicate pad 32 ++ [10])))))) := by
    rw [e1]
    exact takeUntilQuote_append _ _ (descr_no_quote d)
  cases f with
  | true =>
    simp only [parseHeader, dropExact_append, hquote, dtypeOfDescr_self,
      parseShape_shapeBytes, htrail, if_true]
  | false =>
    have hfail : ∀ Z : List Nat,
        dropExact (boolBytes true) (boolBytes false ++ Z) = none := fun _ => rfl
    simp only [parseHeader, dropExact_append, hquote, dtypeOfDescr_self, hfail,
      parseShape_shapeBytes, htrail, if_true]

theorem decodeWithHeader_concat (d : Dtype) (f : Bool) (s : List Nat) (pad : Nat)
    (dat : List Nat) (len : Nat)
    (hL : len = (headerCore d f s).length + 1 + pad)
    (hdat : dat.length = d.itemsize * listProd s) :
    decodeWithHeader len (headerCore d f s ++ (List.replicate pad 32 ++ 10 :: dat)) =
      some ⟨d, f, s, dat⟩ := by
  have hback : headerCore d f s ++ (List.replicate pad 32 ++ 10 :: dat) =
      (headerCore d f s ++ (List.replicate pad 32 ++ [10])) ++ dat := by
    simp [List.append_assoc]
  rw [hback]
  set hdr := headerCore d f s ++ (List.replicate pad 32 ++ [10]) with hhdr
  have hhdr_len : hdr.length = len := by
    simp only [hhdr, List.length_append, List.length_replicate, List.length_cons,
      List.length_nil]
    omega
  have hle : len ≤ (hdr ++ dat).length := by
    simp only [List.length_append]
    omega
  have htake : (hdr ++ dat).take len = hdr := by
    rw [← hhdr_len]
    exact List.take_left hdr dat
  have hdrop : (hdr ++ dat).drop len = dat := by
    rw [← hhdr_len]
    exact List.drop_left hdr dat
  simp only [decodeWithHeader, if_pos hle, htake, hdrop, hhdr, parseHeader_render]
  rw [← hdat]
  simp [List.take_length]

/-- Claim C1: for every array the codec can encode (np.save succeeds and the
buffer is well formed), decoding the transport blob produced by encoding it
recovers the original array exactly, including shape and dtype:
rpcbinary_to_array applied to array_to_rpcbinary gives the array back. -/
theorem claim_c1_rpcbinary_roundtrip (a : NDArray)
    (hlen : a.data.length = a.dtype.itemsize * listProd a.shape)
    (hbytes : ∀ b ∈ a.data, b < 256)
    (blob : List Nat) (henc : array_to_rpcbinary a = some blob) :
    rpcbinary_to_array blob = some a := by
  simp only [array_to_rpcbinary] at henc
  split at henc
  case isTrue hc1 =>
    rw [Option.some.injEq] at henc
    subst henc
    set core := headerCore a.dtype a.fortranOrder a.shape with hcore
    set pad := 64 - ((8 + 2 + (core.length + 1)) % 64) with hpad
    set len := core.length + 1 + pad with hlen1
    have hb : magicBytes ++ [1, 0] ++ [len % 256, len / 256] ++ core ++
        List.replicate pad 32 ++ [10] ++ a.data =
        magicBytes ++ (1 :: 0 :: (len % 256) :: (len / 256) ::
          (core ++ List.replicate pad 32 ++ [10] ++ a.data)) := by
      simp [List.append_assoc]
    rw [hb]
    simp only [rpcbinary_to_array, dropExact_append]
    norm_num
    have hmod : len % 256 + 256 * (len / 256) = len := by omega
    rw [hmod, hcore]
    exact decodeWithHeader_concat _ _ _ _ _ _ (by rw [hlen1, hcore]) hlen
  case isFalse hc1 =>
    split at henc
    case isTrue hc2 =>
      rw [Option.some.injEq] at henc
      subst henc
      set core := headerCore a.dtype a.fortranOrder a.shape with hcore
      set pad := 64 - ((8 + 4 + (core.length + 1)) % 64) with hpad
      set len := core.length + 1 + pad with hlen2
      have hb : magicBytes ++ [2, 0] ++
          [len % 256, len / 256 % 256, len / 65536 % 256, len / 16777216] ++ core ++
          List.replicate pad 32 ++ [10] ++ a.data =
          magicBytes ++ (2 :: 0 :: (len % 256) :: (len / 256 % 256) ::
            (len / 65536 % 256) :: (len / 16777216) ::
            (core ++ List.replicate pad 32 ++ [10] ++ a.data)) := by
        simp [List.append_assoc]
      rw [hb]
      simp only [rpcbinary_to_array, dropExact_append]
      norm_num
      have hmod : len % 256 + 256 * (len / 256 % 256) + 65536 * (len / 65536 % 256) +
          16777216 * (len / 16777216) = len := by omega
      rw [hmod, hcore]
      exact decodeWithHeader_concat _ _ _ _ _ _ (by rw [hlen2, hcore]) hlen
    case isFalse hc2 => exact absurd henc (by simp)

/-- Witness for claim C1 at a concrete two-byte uint8 array of shape (2,). -/
theorem claim_c1_witness : rpcbinary_to_array wBlob = some wArr :=
  claim_c1_rpcbinary_roundtrip wArr (by decide) (by decide) wBlob (by decide)

theorem cts_fail (explicit : Option PortVal) (env : Option String) (ini : Ini)
    (refuseAt : Nat → Bool) (i : Nat) (st : ClientState)
    (h : attemptOk explicit env ini refuseAt i = false) :
    ∃ e st2, connect_to_server explicit env ini refuseAt i st = (.error e, st2) := by
  unfold attemptOk at h
  unfold connect_to_server
  cases hres : resolvePort explicit env ini with
  | error e => exact ⟨e, st, rfl⟩
  | ok p =>
    rw [hres] at h
    simp only [Bool.not_eq_false'] at h
    refine ⟨.cdlConnectionError "DataLab is currently not running", ⟨some p, some p⟩, ?_⟩
    simp [h]

theorem cts_ok (explicit : Option PortVal) (env : Option String) (ini : Ini)
    (refuseAt : Nat → Bool) (i : Nat) (st : ClientState)
    (h : attemptOk explicit env ini refuseAt i = true) :
    ∃ st2, connect_to_server explicit env ini refuseAt i st = (.ok (), st2) := by
  unfold attemptOk at h
  unfold connect_to_server
  cases hres : resolvePort explicit env ini with
  | error e => rw [hres] at h; simp at h
  | ok p =>
    rw [hres] at h
    simp only [Bool.not_eq_true'] at h
    exact ⟨⟨some p, some p⟩, by simp [h]⟩

theorem connectLoop_attempts_le (explicit : Option PortVal) (env : Option String)
    (ini : Ini) (refuseAt : Nat → Bool) : ∀ rem i st,
    (connectLoop explicit env ini refuseAt i rem st).attempts ≤ rem := by
  intro rem
  induction rem with
  | zero => intro i st; simp [connectLoop]
  | succ r ih =>
    intro i st
    simp only [connectLoop]
    cases h : connect_to_server explicit env ini refuseAt i st with
    | mk res st2 =>
      cases res with
      | ok u => simp
      | error e =>
        simp only []
        have := ih (i + 1) st2
        omega

theorem connectLoop_sleeps_le (explicit : Option PortVal) (env : Option String)
    (ini : Ini) (refuseAt : Nat → Bool) : ∀ rem i st,
    (connectLoop explicit env ini refuseAt i rem st).sleeps ≤ rem := by
  intro rem
  induction rem with
  | zero => intro i st; simp [connectLoop]
  | succ r ih =>
    intro i st
    simp only [connectLoop]
    cases h : connect_to_server explicit env ini refuseAt i st with
    | mk res st2 =>
      cases res with
      | ok u => simp
      | error e =>
        simp only []
        have := ih (i + 1) st2
        omega

theorem connectLoop_all_fail (explicit : Option PortVal) (env : Option String)
    (ini : Ini) (refuseAt : Nat → Bool) : ∀ rem i st,
    (∀ j, j < rem → attemptOk explicit env ini refuseAt (i + j) = false) →
    (connectLoop explicit env ini refuseAt i rem st).success = none
    ∧ (connectLoop explicit env ini refuseAt i rem st).attempts = rem
    ∧ (connectLoop explicit env ini refuseAt i rem st).sleeps = rem := by
  intro rem
  induction rem with
  | zero => intro i st _; simp [connectLoop]
  | succ r ih =>
    intro i st hall
    have h0 : attemptOk explicit env ini refuseAt i = false := by
      have := hall 0 (by omega)
      simpa using this
    obtain ⟨e, st2, hcts⟩ := cts_fail explicit env ini refuseAt i st h0
    have hrec := ih (i + 1) st2 (fun j hj => by
      have := hall (j + 1) (by omega)
      rwa [show i + (j + 1) = i + 1 + j by omega] at this)
    simp only [connectLoop, hcts]
    exact ⟨hrec.1, by omega, by omega⟩

theorem connectLoop_first_ok (explicit : Option PortVal) (env : Option String)
    (ini : Ini) (refuseAt : Nat → Bool) : ∀ rem i st k, k < rem →
    attemptOk explicit env ini refuseAt (i + k) = true →
    (∀ j, j < k → attemptOk explicit env ini refuseAt (i + j) = false) →
    (connectLoop explicit env ini refuseAt i rem st).success.isSome = true
    ∧ (connectLoop explicit env ini refuseAt i rem st).attempts = k + 1
    ∧ (connectLoop explicit env ini refuseAt i rem st).sleeps = k := by
  intro rem
  induction rem with
  | zero => intro i st k hk; omega
  | succ r ih =>
    intro i st k hk hok hprev
    cases k with
    | zero =>
      have h0 : attemptOk explicit env ini refuseAt i = true := by simpa using hok
      obtain ⟨st2, hcts⟩ := cts_ok explicit env ini refuseAt i st h0
      simp [connectLoop, hcts]
    | succ k2 =>
      have h0 : attemptOk explicit env ini refuseAt i = false := by
        have := hprev 0 (by omega)
        simpa using this
      obtain ⟨e, st2, hcts⟩ := cts_fail explicit env ini refuseAt i st h0
      have hok2 : attemptOk explicit env ini refuseAt (i + 1 + k2) = true := by
        rwa [show i + 1 + k2 = i + (k2 + 1) by omega]
      have hprev2 : ∀ j, j < k2 → attemptOk explicit env ini refuseAt (i + 1 + j) = false := by
        intro j hj
        have := hprev (j + 1) (by omega)
        rwa [show i + (j + 1) = i + 1 + j by omega] at this
      have hrec := ih (i + 1) st2 k2 (by omega) hok2 hprev2
      simp only [connectLoop, hcts]
      exact ⟨hrec.1, by omega, by omega⟩

theorem connect_valid_fields (explicit : Option PortVal) (env : Option String)
    (ini : Ini) (refuseAt : Nat → Bool) (t : Rat) (r : Int) (st : ClientState)
    (ht : 0 ≤ t) (hr : 1 ≤ r) :
    (connect explicit env ini refuseAt (some t) (some r) st).attempts =
      (connectLoop explicit env ini refuseAt 0 r.toNat st).attempts
    ∧ (connect explicit env ini refuseAt (some t) (some r) st).sleeps =
      (connectLoop explicit env ini refuseAt 0 r.toNat st).sleeps
    ∧ (connect explicit env ini refuseAt (some t) (some r) st).totalSleep =
      ((connectLoop explicit env ini refuseAt 0 r.toNat st).sleeps : Rat) * (t / (r : Rat))
    ∧ ((connectLoop explicit env ini refuseAt 0 r.toNat st).success = none →
      (connect explicit env ini refuseAt (some t) (some r) st).result =
        .error (.cdlConnectionError "Unable to connect to DataLab"))
    ∧ (∀ s2, (connectLoop explicit env ini refuseAt 0 r.toNat st).success = some s2 →
      (connect explicit env ini refuseAt (some t) (some r) st).result = .ok ()) := by
  simp only [connect, Option.getD_some]
  rw [if_neg (not_lt.2 ht), if_neg (not_lt.2 hr)]
  cases hs : (connectLoop explicit env ini refuseAt 0 r.toNat st).success <;>
    simp [hs]

/-- Claim C2: with a valid timeout and retries, connect performs at most
retries attempts; if every attempt fails it raises CDLConnectionError with
the message Unable to connect to DataLab, having used all retries; the
first success at attempt k stops the loop after exactly k + 1 attempts;
and a missing retries argument behaves as 10. -/
theorem claim_c2_connect_retries (explicit : Option PortVal) (env : Option String)
    (ini : Ini) (refuseAt : Nat → Bool) (t : Rat) (r : Int) (st : ClientState)
    (ht : 0 ≤ t) (hr : 1 ≤ r) :
    (connect explicit env ini refuseAt (some t) (some r) st).attempts ≤ r.toNat
    ∧ ((∀ i, i < r.toNat → attemptOk explicit env ini refuseAt i = false) →
      (connect explicit env ini refuseAt (some t) (some r) st).result =
        .error (.cdlConnectionError "Unable to connect to DataLab")
      ∧ (connect explicit env ini refuseAt (some t) (some r) st).attempts = r.toNat)
    ∧ (∀ k, k < r.toNat → attemptOk explicit env ini refuseAt k = true →
      (∀ j, j < k → attemptOk explicit env ini refuseAt j = false) →
      (connect explicit env ini refuseAt (some t) (some r) st).attempts = k + 1
      ∧ (connect explicit env ini refuseAt (some t) (some r) st).result = .ok ())
    ∧ connect explicit env ini refuseAt (some t) none st =
      connect explicit env ini refuseAt (some t) (some 10) st := by
  obtain ⟨ha, hsl, hts, hnone, hsome⟩ :=
    connect_valid_fields explicit env ini refuseAt t r st ht hr
  refine ⟨?_, ?_, ?_, rfl⟩
  · rw [ha]
    exact connectLoop_attempts_le explicit env ini refuseAt r.toNat 0 st
  · intro hall
    have hloop := connectLoop_all_fail explicit env ini refuseAt r.toNat 0 st
      (fun j hj => by simpa using hall j hj)
    exact ⟨hnone hloop.1, by rw [ha]; exact hloop.2.1⟩
  · intro k hk hok hprev
    have hloop := connectLoop_first_ok explicit env ini refuseAt r.toNat 0 st k hk
      (by simpa using hok) (fun j hj => by simpa using hprev j hj)
    obtain ⟨s2, hs2⟩ := Option.isSome_iff_exists.mp hloop.1
    exact ⟨by rw [ha]; exact hloop.2.1, hsome s2 hs2⟩

/-- Witness for claim C2: with the first two attempts refused and a third
accepted, connect at timeout 4 with 3 retries succeeds on attempt 3. -/
theorem claim_c2_witness :
    (connect (some (.str "8000")) none [] (fun i => decide (i < 2)) (some 4)
      (some 3) ⟨none, none⟩).attempts = 2 + 1
    ∧ (connect (some (.str "8000")) none [] (fun i => decide (i < 2)) (some 4)
      (some 3) ⟨none, none⟩).result = .ok () :=
  (claim_c2_connect_retries (some (.str "8000")) none [] (fun i => decide (i < 2))
    4 3 ⟨none, none⟩ (by norm_num) (by norm_num)).2.2.1 2 (by decide) (by decide)
    (by decide)

/-- Claim C3: with a valid timeout and retries, every sleep of connect is
exactly timeout divided by retries, the number of sleeps never exceeds
retries, so the total time slept never exceeds the timeout; a missing
timeout argument behaves as 5.0 seconds. -/
theorem claim_c3_timeout_slicing (explicit : Option PortVal) (env : Option String)
    (ini : Ini) (refuseAt : Nat → Bool) (t : Rat) (r : Int) (st : ClientState)
    (ht : 0 ≤ t) (hr : 1 ≤ r) :
    (connect explicit env ini refuseAt (some t) (some r) st).totalSleep =
      ((connect explicit env ini refuseAt (some t) (some r) st).sleeps : Rat) *
        (t / (r : Rat))
    ∧ (connect explicit env ini refuseAt (some t) (some r) st).sleeps ≤ r.toNat
    ∧ (connect explicit env ini refuseAt (some t) (some r) st).totalSleep ≤ t
    ∧ connect explicit env ini refuseAt none (some r) st =
      connect explicit env ini refuseAt (some 5) (some r) st := by
  obtain ⟨ha, hsl, hts, hnone, hsome⟩ :=
    connect_valid_fields explicit env ini refuseAt t r st ht hr
  have hle : (connect explicit env ini refuseAt (some t) (some r) st).sleeps ≤ r.toNat := by
    rw [hsl]
    exact connectLoop_sleeps_le explicit env ini refuseAt r.toNat 0 st
  refine ⟨by rw [hts, hsl], hle, ?_, rfl⟩
  rw [hts]
  have hr0 : (0 : Rat) < (r : Rat) := by
    have : (0 : Int) < r := by omega
    exact_mod_cast this
  have hdiv : 0 ≤ t / (r : Rat) := div_nonneg ht (le_of_lt hr0)
  have hcast : (((connectLoop explicit env ini refuseAt 0 r.toNat st).sleeps : Nat) : Rat) ≤
      (r : Rat) := by
    have h1 := connectLoop_sleeps_le explicit env ini refuseAt r.toNat 0 st
    have h2 : ((r.toNat : Int) : Rat) = (r : Rat) := by
      rw [Int.toNat_of_nonneg (by omega)]
    calc (((connectLoop explicit env ini refuseAt 0 r.toNat st).sleeps : Nat) : Rat)
        ≤ ((r.toNat : Nat) : Rat) := by exact_mod_cast h1
      _ = (r : Rat) := by rw [← h2]; push_cast; ring
  calc ((connectLoop explicit env ini refuseAt 0 r.toNat st).sleeps : Rat) * (t / (r : Rat))
      ≤ (r : Rat) * (t / (r : Rat)) := mul_le_mul_of_nonneg_right hcast hdiv
    _ = t := by rw [mul_comm]; exact div_mul_cancel₀ t (ne_of_gt hr0)

/-- Witness for claim C3: with two refused attempts out of three retries and
timeout 4, the total time slept stays at most the timeout. -/
theorem claim_c3_witness :
    (connect (some (.str "8000")) none [] (fun i => decide (i < 2)) (some 4)
      (some 3) ⟨none, none⟩).totalSleep ≤ 4 :=
  (claim_c3_timeout_slicing (some (.str "8000")) none [] (fun i => decide (i < 2))
    4 3 ⟨none, none⟩ (by norm_num) (by norm_num)).2.2.1

/-- Claim C8: connect validates its arguments before any connection attempt,
in the order the code checks them: a negative timeout raises ValueError
about the timeout; with a non-negative (or defaulted) timeout, retries
below one raises ValueError about the retries; in both cases zero attempts
are made, nothing is slept and the client state is untouched. -/
theorem claim_c8_connect_validation (explicit : Option PortVal) (env : Option String)
    (ini : Ini) (refuseAt : Nat → Bool) (st : ClientState) :
    (∀ (t : Rat) (r? : Option Int), t < 0 →
      connect explicit env ini refuseAt (some t) r? st =
        ⟨.error (.valueError "timeout must be >= 0.0"), st, 0, 0, 0⟩)
    ∧ (∀ (t? : Option Rat) (r : Int), 0 ≤ t?.getD 5 → r < 1 →
      connect explicit env ini refuseAt t? (some r) st =
        ⟨.error (.valueError "retries must be >= 1"), st, 0, 0, 0⟩) := by
  constructor
  · intro t r? ht
    simp only [connect, Option.getD_some]
    rw [if_pos ht]
  · intro t? r ht hr
    simp only [connect, Option.getD_some]
    rw [if_neg (not_lt.2 ht), if_pos hr]

/-- Witness for claim C8 at timeout -1 and at retries 0. -/
theorem claim_c8_witness :
    connect none none [] (fun _ => false) (some (-1)) (some 3) ⟨none, none⟩ =
      ⟨.error (.valueError "timeout must be >= 0.0"), ⟨none, none⟩, 0, 0, 0⟩
    ∧ connect none none [] (fun _ => false) (some 1) (some 0) ⟨none, none⟩ =
      ⟨.error (.valueError "retries must be >= 1"), ⟨none, none⟩, 0, 0, 0⟩ :=
  ⟨(claim_c8_connect_validation none none [] (fun _ => false) ⟨none, none⟩).1
      (-1) (some 3) (by norm_num),
   (claim_c8_connect_validation none none [] (fun _ => false) ⟨none, none⟩).2
      (some 1) 0 (by norm_num) (by norm_num)⟩

/-- Claim C9: get_xmlrpcport_from_env never raises; for every environment it
returns the parsed integer when the variable is set to a parseable string,
and None when the variable is unset or not parseable, TypeError and
ValueError both being caught. -/
theorem claim_c9_env_never_raises (env : Option String) :
    get_xmlrpcport_from_env env = .ok (env.bind pyIntOfString) := by
  cases env with
  | none => rfl
  | some s =>
    cases h : pyIntOfString s with
    | none => simp [get_xmlrpcport_from_env, pyInt, h]
    | some n => simp [get_xmlrpcport_from_env, pyInt, h]

/-- Claim C4: an explicitly passed port is used as-is whatever the
environment and the configuration file say; with no explicit port the
environment variable is consulted first, and only when it yields no valid
integer is the configuration file read (section main, option
rpc_server_port); if that section or option is missing the error is
CDLConnectionError saying DataLab has not yet been executed. -/
theorem claim_c4_port_discovery (p : PortVal) (env : Option String) (ini : Ini) :
    resolvePort (some p) env ini = .ok p
    ∧ (∀ n : Int, get_xmlrpcport_from_env env = .ok (some n) →
      resolvePort none env ini = .ok (.int n))
    ∧ (∀ s : String, get_xmlrpcport_from_env env = .ok none →
      iniGet ini "main" "rpc_server_port" = some s →
      resolvePort none env ini = .ok (.str s))
    ∧ (get_xmlrpcport_from_env env = .ok none →
      iniGet ini "main" "rpc_server_port" = none →
      resolvePort none env ini =
        .error (.cdlConnectionError "DataLab has not yet been executed")) := by
  refine ⟨rfl, ?_, ?_, ?_⟩
  · intro n h
    simp [resolvePort, h]
  · intro s h1 h2
    simp [resolvePort, h1, get_cdl_xmlrpc_port, h2]
  · intro h1 h2
    simp [resolvePort, h1, get_cdl_xmlrpc_port, h2]

/-- Witness for claim C4: an explicit port wins, a numeric environment value
wins over the file, a non-numeric environment value falls back to the file,
and an empty file is the dedicated connection error. -/
theorem claim_c4_witness :
    resolvePort (some (.str "8000")) (some "8124")
      [("main", [("rpc_server_port", "9257")])] = .ok (.str "8000")
    ∧ resolvePort none (some "8124") [("main", [("rpc_server_port", "9257")])] =
      .ok (.int 8124)
    ∧ resolvePort none (some "ribbit") [("main", [("rpc_server_port", "9257")])] =
      .ok (.str "9257")
    ∧ resolvePort none none [] =
      .error (.cdlConnectionError "DataLab has not yet been executed") :=
  ⟨(claim_c4_port_discovery (.str "8000") (some "8124")
      [("main", [("rpc_server_port", "9257")])]).1,
   (claim_c4_port_discovery (.str "8000") (some "8124")
      [("main", [("rpc_server_port", "9257")])]).2.1 8124 (by decide),
   (claim_c4_port_discovery (.str "8000") (some "ribbit")
      [("main", [("rpc_server_port", "9257")])]).2.2.1 "9257" (by decide) (by decide),
   (claim_c4_port_discovery (.str "8000") none ([] : Ini)).2.2.2 (by decide) (by decide)⟩

/-- Claim C6: for a DataSet whose class resolves through the import registry
to the class recorded in the payload, decoding the three-element list
produced by dataset_to_json yields a DataSet equal to the original (same
class and same serialized contents), provided the guidata JSON reader
inverts the writer as documented. -/
theorem claim_c6_dataset_roundtrip (ser deser : String → String)
    (registry : String → String → Option GDClass) (p : GDataSet)
    (hcodec : ∀ c, deser (ser c) = c)
    (himp : registry p.klass.modname p.klass.clsname = some p.klass) :
    json_to_dataset registry deser (dataset_to_json ser p) = some p := by
  simp only [dataset_to_json, json_to_dataset, himp, hcodec]

/-- Witness for claim C6 with the identity codec and a one-entry registry. -/
theorem claim_c6_witness :
    json_to_dataset
      (fun m c => if m = "mod" ∧ c = "Cls" then some ⟨"mod", "Cls"⟩ else none)
      (fun s => s)
      (dataset_to_json (fun s => s) ⟨⟨"mod", "Cls"⟩, "state"⟩) =
      some ⟨⟨"mod", "Cls"⟩, "state"⟩ :=
  claim_c6_dataset_roundtrip (fun s => s) (fun s => s)
    (fun m c => if m = "mod" ∧ c = "Cls" then some ⟨"mod", "Cls"⟩ else none)
    ⟨⟨"mod", "Cls"⟩, "state"⟩ (fun _ => rfl) (by simp)

/-- Claim C10: attribute lookup falling through to the proxy getattr hook
succeeds exactly for names with the compute_ prefix, returning a callable
that applies calc to the name and an optional parameter; any other
undefined name raises AttributeError naming the missing function. -/
theorem claim_c10_getattr_compute (rsp : String → List RpcVal → RpcVal)
    (ser : String → String) (name : String) :
    (hasPfx "compute_".data name.data = true →
      dunder_getattr rsp ser name =
        .ok (fun param => RemoteClient.calc_fn rsp ser name param))
    ∧ (hasPfx "compute_".data name.data = false →
      dunder_getattr rsp ser name =
        .error (.attributeError
          ("DataLab has no compute function \x27" ++ name ++ "\x27"))) := by
  constructor <;> intro h <;> simp [dunder_getattr, h]

/-- Witness for claim C10 at one compute name and one other name. -/
theorem claim_c10_witness :
    dunder_getattr (fun _ _ => RpcVal.vnone) (fun s => s) "compute_fft" =
      .ok (fun param =>
        RemoteClient.calc_fn (fun _ _ => RpcVal.vnone) (fun s => s) "compute_fft" param)
    ∧ dunder_getattr (fun _ _ => RpcVal.vnone) (fun s => s) "get_bogus" =
      .error (.attributeError
        ("DataLab has no compute function \x27" ++ "get_bogus" ++ "\x27")) :=
  ⟨(claim_c10_getattr_compute (fun _ _ => RpcVal.vnone) (fun s => s)
      "compute_fft").1 (by decide),
   (claim_c10_getattr_compute (fun _ _ => RpcVal.vnone) (fun s => s)
      "get_bogus").2 (by decide)⟩

/-- Counterexample to claim C5 as stated: calc does not pass a DataSet
parameter through unchanged; the remote call carries the dataset_to_json
encoding of the parameter, not the parameter itself. -/
theorem claim_c5_counterexample :
    (RemoteClient.calc_fn (fun _ _ => RpcVal.vnone) (fun s => s) "compute_fft"
      (some ⟨⟨"mod", "Cls"⟩, "x"⟩)).2 ≠
      [⟨"calc", [RpcVal.vstr "compute_fft", RpcVal.vds ⟨⟨"mod", "Cls"⟩, "x"⟩]⟩] := by
  simp [RemoteClient.calc_fn, dataset_to_json]

/-- Claim C5 as amended: each listed control method forwards the call to the
remote method of the same name with its arguments unchanged and returns the
remote result; except that add_signal and add_image first encode their
array arguments with array_to_rpcbinary, and calc omits a None parameter
and encodes a DataSet parameter with dataset_to_json. -/
theorem claim_c5_amended (rsp : String → List RpcVal → RpcVal)
    (ser : String → String) (pan : Option String)
    (panel2 filename title name : String) (sel : List (Int ⊕ String))
    (g : Option Int) (p : GDataSet) (x y z : NDArray) (bx by2 bz : List Nat)
    (xu yu zu xl yl zl : Option String) :
    SimpleBaseProxy.switch_to_panel panel2 =
      ((), [⟨"switch_to_panel", [.vstr panel2]⟩])
    ∧ SimpleBaseProxy.reset_all = ((), [⟨"reset_all", []⟩])
    ∧ SimpleBaseProxy.save_to_h5_file filename =
      ((), [⟨"save_to_h5_file", [.vstr filename]⟩])
    ∧ SimpleBaseProxy.select_objects sel g pan =
      ((), [⟨"select_objects", [selVal sel, optInt g, optStr pan]⟩])
    ∧ SimpleBaseProxy.get_object_titles rsp pan =
      (rsp "get_object_titles" [optStr pan], [⟨"get_object_titles", [optStr pan]⟩])
    ∧ SimpleBaseProxy.get_object_uuids rsp pan =
      (rsp "get_object_uuids" [optStr pan], [⟨"get_object_uuids", [optStr pan]⟩])
    ∧ RemoteClient.calc_fn rsp ser name none =
      (rsp "calc" [.vstr name], [⟨"calc", [.vstr name]⟩])
    ∧ RemoteClient.calc_fn rsp ser name (some p) =
      (rsp "calc" [.vstr name, .vlist ((dataset_to_json ser p).map RpcVal.vstr)],
       [⟨"calc", [.vstr name, .vlist ((dataset_to_json ser p).map RpcVal.vstr)]⟩])
    ∧ (array_to_rpcbinary x = some bx → array_to_rpcbinary y = some by2 →
      RemoteClient.add_signal rsp title x y xu yu xl yl =
        (.ok (rsp "add_signal" [.vstr title, .vbin bx, .vbin by2, optStr xu,
          optStr yu, optStr xl, optStr yl]),
         [⟨"add_signal", [.vstr title, .vbin bx, .vbin by2, optStr xu, optStr yu,
          optStr xl, optStr yl]⟩]))
    ∧ (array_to_rpcbinary z = some bz →
      RemoteClient.add_image rsp title z xu yu zu xl yl zl =
        (.ok (rsp "add_image" [.vstr title, .vbin bz, optStr xu, optStr yu,
          optStr zu, optStr xl, optStr yl, optStr zl]),
         [⟨"add_image", [.vstr title, .vbin bz, optStr xu, optStr yu, optStr zu,
          optStr xl, optStr yl, optStr zl]⟩])) := by
  refine ⟨rfl, rfl, rfl, rfl, rfl, rfl, rfl, rfl, ?_, ?_⟩
  · intro hx hy
    simp [RemoteClient.add_signal, hx, hy]
  · intro hz
    simp [RemoteClient.add_image, hz]

/-- Witness for the amended claim C5: add_signal on a concrete array issues
the remote call with the encoded blob and other arguments unchanged. -/
theorem claim_c5_witness :
    RemoteClient.add_signal (fun _ _ => RpcVal.vnone) "sig" wArr wArr
      none none none none =
      (.ok RpcVal.vnone,
       [⟨"add_signal", [RpcVal.vstr "sig", RpcVal.vbin wBlob, RpcVal.vbin wBlob,
        RpcVal.vnone, RpcVal.vnone, RpcVal.vnone, RpcVal.vnone]⟩]) :=
  (claim_c5_amended (fun _ _ => RpcVal.vnone) (fun s => s) none "panel" "file"
    "sig" "name" [] none ⟨⟨"mod", "Cls"⟩, "x"⟩ wArr wArr wArr wBlob wBlob wBlob
    none none none none none none).2.2.2.2.2.2.2.2.1 (by decide) (by decide)

/-- Counterexample to claim C7 as stated: add_annotations_from_items with an
empty item list issues no remote call at all, not one. -/
theorem claim_c7_counterexample :
    ¬ ((RemoteClient.add_annots_from_items (fun _ => "") [] true none).2.length = 1) := by
  simp [RemoteClient.add_annots_from_items, items_to_json]

/-- Claim C7 as amended: every invocation of a forwarding method issues at
most one synchronous remote call, and exactly one except for
add_annotations_from_items, which issues none when its item list is empty
(items_to_json returns None) and exactly one otherwise. -/
theorem claim_c7_amended (rsp : String → List RpcVal → RpcVal)
    (ser : String → String) (saveItems : List String → String)
    (pan : Option String) (panel2 filename title name : String)
    (sel : List (Int ⊕ String)) (g : Option Int) (param? : Option GDataSet)
    (x y z : NDArray) (items : List String) (refresh : Bool)
    (xu yu zu xl yl zl : Option String) :
    (SimpleBaseProxy.switch_to_panel panel2).2.length = 1
    ∧ SimpleBaseProxy.reset_all.2.length = 1
    ∧ (SimpleBaseProxy.save_to_h5_file filename).2.length = 1
    ∧ (SimpleBaseProxy.select_objects sel g pan).2.length = 1
    ∧ (SimpleBaseProxy.get_object_titles rsp pan).2.length = 1
    ∧ (SimpleBaseProxy.get_object_uuids rsp pan).2.length = 1
    ∧ (RemoteClient.calc_fn rsp ser name param?).2.length = 1
    ∧ (∀ bx by2, array_to_rpcbinary x = some bx → array_to_rpcbinary y = some by2 →
      (RemoteClient.add_signal rsp title x y xu yu xl yl).2.length = 1)
    ∧ (∀ bz, array_to_rpcbinary z = some bz →
      (RemoteClient.add_image rsp title z xu yu zu xl yl zl).2.length = 1)
    ∧ (items = [] →
      (RemoteClient.add_annots_from_items saveItems items refresh pan).2.length = 0)
    ∧ (items ≠ [] →
      (RemoteClient.add_annots_from_items saveItems items refresh pan).2.length = 1) := by
  refine ⟨rfl, rfl, rfl, rfl, rfl, rfl, ?_, ?_, ?_, ?_, ?_⟩
  · cases param? <;> rfl
  · intro bx by2 hx hy
    simp [RemoteClient.add_signal, hx, hy]
  · intro bz hz
    simp [RemoteClient.add_image, hz]
  · intro h
    subst h
    rfl
  · intro h
    cases items with
    | nil => exact absurd rfl h
    | cons it its => rfl

/-- Witness for the amended claim C7: a non-empty item list issues exactly
one remote call. -/
theorem claim_c7_witness :
    (RemoteClient.add_annots_from_items (fun _ => "json") ["rect"] true none).2.length
      = 1 :=
  (claim_c7_amended (fun _ _ => RpcVal.vnone) (fun s => s) (fun _ => "json") none
    "panel" "file" "title" "name" [] none none wArr wArr wArr ["rect"] true
    none none none none none none).2.2.2.2.2.2.2.2.2.2 (by simp)
